import Mathlib

/-!
Verification of the Sim2Blend numeric transform pipeline.

Shallow embedding of the two source files:
  * `Sim2Blend/motion.py`  — `apply_mot_to_model`: .mot path (framerate, up-axis
    conversion, 4x4 matrix decomposition into loc/rot, CSV export) and the
    CSV re-import path (header parsing, framerate, keyframe emission).
  * `Sim2Blend/forces.py`  — `fpdata2locrot`: reshape of flat force-plate
    records into per-entity loc/rot/scale columns.

Python floats are modelled as real numbers (`ℝ`); the framerate computation,
which only involves the time column and `int()`, is modelled over `ℚ` so that
concrete instances evaluate by `decide`/`norm_num`.  Python strings are
modelled as `List Char` where the code parses them (the CSV header round
trip), and as `String` where they are only assembled (record column names).

External collaborators (the Blender scene, the OpenSim model, `mathutils`)
are out of scope per the spec; the single `mathutils` computation the claims
touch — `Vector.rotation_difference(..).to_euler('XYZ')` — is kept as an
abstract parameter (`MathUtils`), while `Vector.normalized` and
`Vector.magnitude`, whose exact behaviour the claims do depend on, are
modelled concretely (mathutils returns the zero vector when normalizing a
zero-length vector).
-/

/-! ### numpy.arctan2

`np.arctan2 y x` with the standard C/numpy conventions, in particular
`arctan2 0 0 = 0` and `arctan2 (-1) 0 = -π/2`. -/

noncomputable def atan2 (y x : ℝ) : ℝ :=
  if 0 < x then Real.arctan (y / x)
  else if x < 0 then
    (if 0 ≤ y then Real.arctan (y / x) + Real.pi else Real.arctan (y / x) - Real.pi)
  else
    (if 0 < y then Real.pi / 2 else if y < 0 then -(Real.pi / 2) else 0)

/-! ### motion.py — matrix pipeline (lines 109–150)

A pose matrix is `H : Fin 4 → Fin 4 → ℝ`; the rotation delivered by the
OpenSim collaborator is `R : Fin 3 → Fin 3 → ℝ` with translation
`T : Fin 3 → ℝ`. -/

/-- The up-axis selector of `apply_mot_to_model` (`direction` argument,
one of `'zup'`/`'yup'`). -/
inductive Direction
  | zup
  | yup
deriving DecidableEq

/-- `H_zup = np.array([[1,0,0,0], [0,0,-1,0], [0,1,0,0], [0,0,0,1]])`
(motion.py line 109). -/
noncomputable def H_zup : Fin 4 → Fin 4 → ℝ :=
  ![![1, 0, 0, 0], ![0, 0, -1, 0], ![0, 1, 0, 0], ![0, 0, 0, 1]]

/-- 4x4 matrix product (`@` in numpy, motion.py line 129). -/
noncomputable def mul4 (A B : Fin 4 → Fin 4 → ℝ) : Fin 4 → Fin 4 → ℝ :=
  fun i j => ∑ k : Fin 4, A i k * B k j

/-- `H = np.block([[R, T.reshape(3,1)], [np.zeros(3), 1]])`
(motion.py line 125). -/
noncomputable def blockH (R : Fin 3 → Fin 3 → ℝ) (T : Fin 3 → ℝ) : Fin 4 → Fin 4 → ℝ :=
  ![![R 0 0, R 0 1, R 0 2, T 0],
    ![R 1 0, R 1 1, R 1 2, T 1],
    ![R 2 0, R 2 1, R 2 2, T 2],
    ![0, 0, 0, 1]]

/-- `if direction=='zup': H = H_zup @ H` (motion.py lines 128–129). -/
noncomputable def upAxis (dir : Direction) (H : Fin 4 → Fin 4 → ℝ) : Fin 4 → Fin 4 → ℝ :=
  if dir = Direction.zup then mul4 H_zup H else H

/-- Result of the loc/rot decomposition (motion.py lines 133–143). -/
structure LocRot where
  loc_x : ℝ
  loc_y : ℝ
  loc_z : ℝ
  rot_x : ℝ
  rot_y : ℝ
  rot_z : ℝ

/-- Matrix decomposition, motion.py lines 133–143.  `H` is the (possibly
up-axis converted) pose matrix; its rotation block `R_mat = H[0:3,0:3]` is
read through `H` directly.  `R` is the raw rotation delivered by
`getTransformInGround` *before* the up-axis conversion: the singular branch
of the source reads `R[2,0]` (not `R_mat[2,0]`) for `rot_y`
(line 142, `rot_y = np.arctan2(-R[2,0], sy)`), so the decomposition is a
function of both matrices. -/
noncomputable def decompose (H : Fin 4 → Fin 4 → ℝ) (R : Fin 3 → Fin 3 → ℝ) : LocRot :=
  let sy := Real.sqrt ((H 1 0) ^ 2 + (H 0 0) ^ 2)
  if sy > 1e-6 then
    ⟨H 0 3, H 1 3, H 2 3,
      atan2 (H 2 1) (H 2 2), atan2 (-(H 2 0)) sy, atan2 (H 1 0) (H 0 0)⟩
  else
    ⟨H 0 3, H 1 3, H 2 3,
      atan2 (-(H 1 2)) (H 1 1), atan2 (-(R 2 0)) sy, 0⟩

/-- Per-body processing of one frame on the .mot path (motion.py lines
125–143): build `H` from the model-supplied `R`,`T`, apply the up-axis
conversion, decompose. -/
noncomputable def processBody (dir : Direction) (R : Fin 3 → Fin 3 → ℝ) (T : Fin 3 → ℝ) :
    LocRot :=
  decompose (upAxis dir (blockH R T)) R

/-! ### motion.py — framerate derivation (lines 88–90 and 173–175)

`fps = int(len(times) / (times[-1] - times[0]))` on both paths.  Python's
`int()` on a float truncates toward zero. -/

/-- Python `int()` applied to a (real-valued) number: truncation toward
zero. -/
def pyInt (x : ℚ) : ℤ := if 0 ≤ x then ⌊x⌋ else ⌈x⌉

/-- Framerate derivation of the .mot path (motion.py lines 88–89):
`times = motion_data.getIndependentColumn(); fps = int(len(times) / (times[-1] - times[0]))`. -/
def motFps (times : List ℚ) : ℤ :=
  pyInt ((times.length : ℚ) / (times.getLast! - times.head!))

/-- Framerate derivation of the csv path (motion.py lines 173–174):
`times = loc_rot_frame_all_np[:,0]; fps = int(len(times) / (times[-1] - times[0]))`. -/
def csvFps (times : List ℚ) : ℤ :=
  pyInt ((times.length : ℚ) / (times.getLast! - times.head!))

/-! ### motion.py — CSV serializer (lines 155–160) and loader (lines 164–191)

Strings are `List Char`.  The writer emits
`'# ' + 'times, ' + ''.join([f'{b}_x, {b}_y, {b}_z, {b}_rotx, {b}_roty, {b}_rotz, ' for b in bodyNames])[:-2] + '\n'`
(`np.savetxt` prefixes the header with its `'# '` comment marker and
terminates the line); the reader does
`bodyNames = csv_header.split(',')[1::6]; bodyNames = [b[1:-2] for b in bodyNames]`
on the line returned by `f.readline()` (which retains the `'\n'`). -/

/-- Python `l[:-2]`. -/
def dropLastTwo (l : List Char) : List Char := l.take (l.length - 2)

/-- The six per-body column names of the pose CSV, in writer order. -/
def entityCols6 (b : List Char) : List (List Char) :=
  [b ++ ("_x").toList, b ++ ("_y").toList, b ++ ("_z").toList,
   b ++ ("_rotx").toList, b ++ ("_roty").toList, b ++ ("_rotz").toList]

/-- One body's header fragment
`f'{b}_x, {b}_y, {b}_z, {b}_rotx, {b}_roty, {b}_rotz, '` (motion.py
line 159). -/
def segmentOf (b : List Char) : List Char :=
  ((entityCols6 b).map (fun c => c ++ (", ").toList)).flatten

/-- `bodyHeader = 'times, ' + ''.join([...])[:-2]` (motion.py line 159). -/
def bodyHeader (bodyNames : List (List Char)) : List Char :=
  ("times, ").toList ++ dropLastTwo ((bodyNames.map segmentOf).flatten)

/-- The header line as read back by `f.readline()`: `np.savetxt` writes
`'# '` + header + newline (motion.py line 160). -/
def csvHeaderLine (bodyNames : List (List Char)) : List Char :=
  ("# ").toList ++ bodyHeader bodyNames ++ ['\n']

/-- Python `str.split(',')`. -/
def splitComma : List Char → List (List Char)
  | [] => [[]]
  | c :: rest =>
    if c = ',' then [] :: splitComma rest
    else match splitComma rest with
      | [] => [[c]]
      | t :: ts => (c :: t) :: ts

/-- Python `l[::6]` (every sixth element, starting at the head). -/
def everySixth : List (List Char) → List (List Char)
  | [] => []
  | [a] => [a]
  | [a, _] => [a]
  | [a, _, _] => [a]
  | [a, _, _, _] => [a]
  | [a, _, _, _, _] => [a]
  | a :: _ :: _ :: _ :: _ :: _ :: rest => a :: everySixth rest

/-- `bodyNames = csv_header.split(',')[1::6]; bodyNames = [b[1:-2] for b in bodyNames]`
(motion.py lines 169–170): `[1::6]` is drop-one-then-every-sixth, and
`b[1:-2]` drops the first character and the last two. -/
def readBodyNames (line : List Char) : List (List Char) :=
  (everySixth ((splitComma line).drop 1)).map (fun b => dropLastTwo (b.drop 1))

/-- One body's loc/rot tuple inside a CSV row. -/
structure Pose6 where
  x : ℝ
  y : ℝ
  z : ℝ
  rx : ℝ
  ry : ℝ
  rz : ℝ

/-- The six values of one body, in writer order
(`loc_rot_frame.extend([loc_x, loc_y, loc_z, rot_x, rot_y, rot_z])`,
motion.py line 144). -/
def pose6List (p : Pose6) : List ℝ := [p.x, p.y, p.z, p.rx, p.ry, p.rz]

/-- One written CSV data row:
`np.insert(loc_rot_frame_all_np, 0, times, axis=1)` puts the frame's time
in front of the concatenated per-body tuples (motion.py lines 144, 158). -/
noncomputable def writeRow (t : ℝ) (poses : List Pose6) : List ℝ :=
  t :: (poses.map pose6List).flatten

/-- Read-back of body `i`'s tuple from a CSV data row (motion.py lines
180–185): columns `6*i+1 … 6*i+6`. -/
noncomputable def readPose (row : List ℝ) (i : ℕ) : Pose6 :=
  ⟨row.getD (6 * i + 1) 0, row.getD (6 * i + 2) 0, row.getD (6 * i + 3) 0,
   row.getD (6 * i + 4) 0, row.getD (6 * i + 5) 0, row.getD (6 * i + 6) 0⟩

/-- One keyframe write to the Blender collaborator on the csv path
(motion.py lines 187–191). -/
structure Keyframe where
  body : List Char
  frame : ℕ
  loc : ℝ × ℝ × ℝ
  rot : ℝ × ℝ × ℝ

/-- The keyframes emitted by the csv path (motion.py lines 178–191):
`for n in range(len(times)): for i, b in enumerate(bodyNames): ...` reads
columns `6*i+1 … 6*i+6` of row `n` and keyframes object `b` at frame
`n+1`.  Rows are total functions from column index to value (all reads in
the loop are in bounds for a well-formed file); `len(times)` is the number
of data rows.  The source performs no validation of any kind before or
inside this loop. -/
noncomputable def csvAnimate (headerLine : List Char) (rows : List (ℕ → ℝ)) : List Keyframe :=
  let bodyNames := readBodyNames headerLine
  ((List.range rows.length).map (fun n =>
    (List.range bodyNames.length).map (fun i =>
      let r := rows.getD n (fun _ => 0)
      Keyframe.mk (bodyNames.getD i []) (n + 1)
        (r (6 * i + 1), r (6 * i + 2), r (6 * i + 3))
        (r (6 * i + 4), r (6 * i + 5), r (6 * i + 6))))).flatten

/-! ### forces.py — `fpdata2locrot` (lines 31–113)

The input record has a leading `Header` column and nine raw fields per
force entity; a row is a total function from flat column index to value.
`mathutils` is external: the composite
`Vector([1,0,0]).rotation_difference(v).to_euler('XYZ')` (lines 66–67) is
an abstract parameter. -/

/-- The external `mathutils` computation used by `fpdata2locrot`:
`originalarrow.rotation_difference(v).to_euler('XYZ')` for
`originalarrow = Vector([1,0,0])`, in radians, applied to the normalized
arrow. -/
structure MathUtils where
  rotDiffEulerXYZ : ℝ × ℝ × ℝ → ℝ × ℝ × ℝ

/-- `Vector.magnitude`. -/
noncomputable def magnitude (v : ℝ × ℝ × ℝ) : ℝ :=
  Real.sqrt (v.1 ^ 2 + v.2.1 ^ 2 + v.2.2 ^ 2)

/-- `Vector.normalized()`: `v / |v|`, except that a zero-length vector is
returned unchanged (mathutils semantics — no exception is raised). -/
noncomputable def normalized (v : ℝ × ℝ × ℝ) : ℝ × ℝ × ℝ :=
  if magnitude v = 0 then v
  else (v.1 / magnitude v, v.2.1 / magnitude v, v.2.2 / magnitude v)

/-- The arrow vector of entity `j` in one row (forces.py lines 48–64):
`idx = [9*i+4, 9*i+5, 9*i+6 for i], arrow = d[:, idx-3]`, and
`thisarrow = Vector([arrow[i,j*3], arrow[i,j*3+1], arrow[i,j*3+2]])`,
i.e. the raw fields at flat offsets `9*j + {1,2,3}` — read directly, with
no arithmetic applied. -/
def thisarrow (row : ℕ → ℝ) (j : ℕ) : ℝ × ℝ × ℝ :=
  (row (9 * j + 1), row (9 * j + 2), row (9 * j + 3))

/-- The `tails` triple of entity `j` (forces.py lines 48–55):
`tails = d[:, idx]` with `idx = 9*j + {4,5,6}`; used verbatim as the
location columns of the output. -/
def tailsv (row : ℕ → ℝ) (j : ℕ) : ℝ × ℝ × ℝ :=
  (row (9 * j + 4), row (9 * j + 5), row (9 * j + 6))

/-- Rotation values of entity `j` (forces.py lines 63–70): the XYZ Euler
angles of the rotation from `(1,0,0)` to the normalized arrow, converted to
degrees (`eul[k]*180/np.pi`). -/
noncomputable def rotvals (mu : MathUtils) (row : ℕ → ℝ) (j : ℕ) : ℝ × ℝ × ℝ :=
  let eul := mu.rotDiffEulerXYZ (normalized (thisarrow row j))
  (eul.1 * 180 / Real.pi, eul.2.1 * 180 / Real.pi, eul.2.2 * 180 / Real.pi)

/-- Scale values of entity `j` (forces.py lines 71–78):
`scalevals[i,j*3] = thisarrow.magnitude/700`, and the lateral scales are
`0` below magnitude `20`, else `1`. -/
noncomputable def scalevals (row : ℕ → ℝ) (j : ℕ) : ℝ × ℝ × ℝ :=
  let m := magnitude (thisarrow row j)
  (m / 700, if m < 20 then 0 else 1, if m < 20 then 0 else 1)

/-- Component accessor for the scatter below. -/
def comp3 (v : ℝ × ℝ × ℝ) : ℕ → ℝ
  | 0 => v.1
  | 1 => v.2.1
  | _ => v.2.2

/-- The assembled `alltbl` (forces.py lines 86–99): a zero matrix of width
`9*N` whose columns `9*i+{0,1,2}` receive `tails`, `9*i+{3,4,5}` receive
`rotvals` and `9*i+{6,7,8}` receive `scalevals` — the scatter covers every
column below `9*N`. -/
noncomputable def alltbl (mu : MathUtils) (N : ℕ) (row : ℕ → ℝ) (c : ℕ) : ℝ :=
  if c < 9 * N then
    (if c % 9 < 3 then comp3 (tailsv row (c / 9)) (c % 9)
     else if c % 9 < 6 then comp3 (rotvals mu row (c / 9)) (c % 9 - 3)
     else comp3 (scalevals row (c / 9)) (c % 9 - 6))
  else 0

/-- One output row (forces.py lines 101–102): the `Header` value of the
input row (its flat column `0`) followed by the `9*N` `alltbl` columns. -/
noncomputable def outRow (mu : MathUtils) (N : ℕ) (row : ℕ → ℝ) : List ℝ :=
  row 0 :: (List.range (9 * N)).map (alltbl mu N row)

/-- The nine output column names of one entity (forces.py lines 106–108). -/
def entityCols (e : String) : List String :=
  [e ++ "_x", e ++ "_y", e ++ "_z",
   e ++ "_rotx", e ++ "_roty", e ++ "_rotz",
   e ++ "_scalex", e ++ "_scaley", e ++ "_scalez"]

/-- `colnames=['Header']` then `colnames = colnames + thisfpcols` per entity
(forces.py lines 103–109). -/
def colnamesOf (fpNames : List String) : List String :=
  fpNames.foldl (fun acc e => acc ++ entityCols e) ["Header"]

/-- The reshaped record returned by `fpdata2locrot`
(`np.core.records.fromarrays(alltbl.transpose(), names=colnames)`,
forces.py line 111). -/
structure ForceOut where
  cols : List String
  rows : List (List ℝ)

/-- `fpdata2locrot` (forces.py lines 31–113), parameterized by the entity
names `fpNames` delivered by the external `readNames` helper and by the
`mathutils` collaborator. -/
noncomputable def fpdata2locrot (mu : MathUtils) (fpNames : List String)
    (rows : List (ℕ → ℝ)) : ForceOut :=
  ⟨colnamesOf fpNames, rows.map (outRow mu fpNames.length)⟩

/-- What the spec's words prescribe for the direction vector
(`arrow = endpoint − base` with the endpoint at flat offsets `9*i+{4,5,6}`
and the base at `9*i+{1,2,3}`) — stated for comparison against
`thisarrow`, which is what the source computes. -/
def arrowSpecEndpointMinusBase (row : ℕ → ℝ) (j : ℕ) : ℝ × ℝ × ℝ :=
  (row (9 * j + 4) - row (9 * j + 1),
   row (9 * j + 5) - row (9 * j + 2),
   row (9 * j + 6) - row (9 * j + 3))

/-! ### Concrete instances used by counterexamples and witnesses -/

/-- A trivial concrete stand-in for the `mathutils` collaborator. -/
def muTriv : MathUtils := ⟨fun _ => (0, 0, 0)⟩

/-- A force row whose arrow (offsets 1–3) is `(100,0,0)` and whose
endpoint group (offsets 4–6) is `(300,0,0)`. -/
noncomputable def rowC2 : ℕ → ℝ := fun c => if c = 1 then 100 else if c = 4 then 300 else 0

/-- A force row that is identically zero: its arrow is `(0,0,0)`. -/
noncomputable def rowZ : ℕ → ℝ := fun _ => 0

/-- A force row whose arrow is `(700,0,0)`. -/
noncomputable def rowC7 : ℕ → ℝ := fun c => if c = 1 then 700 else 0

/-- The rotation matrix `[[0,0,1],[1,0,0],[0,1,0]]` (a valid rotation):
after `H_zup` pre-multiplication its pose matrix hits the singular branch
of the decomposition. -/
noncomputable def Rex : Fin 3 → Fin 3 → ℝ := ![![0, 0, 1], ![1, 0, 0], ![0, 1, 0]]

/-- The up-axis converted pose matrix of `Rex` with zero translation. -/
noncomputable def Hex : Fin 4 → Fin 4 → ℝ :=
  upAxis Direction.zup (blockH Rex (fun _ => 0))

/-- The spec's framerate example: times `0.00, 0.01, …, 0.99`. -/
def exTimes : List ℚ := (List.range 100).map (fun (n : ℕ) => (n : ℚ) / 100)

/-- Example body names for the CSV round trip. -/
def exNames : List (List Char) := [("hip").toList, ("knee").toList]

/-- Example pose rows for the CSV round trip. -/
noncomputable def exPoses : List Pose6 := [⟨1, 2, 3, 4, 5, 6⟩, ⟨7, 8, 9, 10, 11, 12⟩]

/-! ### Helper lemmas -/

theorem getD_range_map (f : ℕ → ℝ) (n i : ℕ) (h : i < n) :
    ((List.range n).map f).getD i 0 = f i := by
  rw [List.getD_eq_getElem _ _ (by simp [h]), List.getElem_map, List.getElem_range]

theorem alltbl_at (mu : MathUtils) (N : ℕ) (row : ℕ → ℝ) (j k : ℕ)
    (hj : j < N) (hk : k < 9) :
    alltbl mu N row (9 * j + k) =
      (if k < 3 then comp3 (tailsv row j) k
       else if k < 6 then comp3 (rotvals mu row j) (k - 3)
       else comp3 (scalevals row j) (k - 6)) := by
  unfold alltbl
  have h1 : 9 * j + k < 9 * N := by omega
  have h2 : (9 * j + k) / 9 = j := by omega
  have h3 : (9 * j + k) % 9 = k := by omega
  rw [if_pos h1, h2, h3]

theorem outRow_at (mu : MathUtils) (N : ℕ) (row : ℕ → ℝ) (j k : ℕ)
    (hj : j < N) (hk : k < 9) :
    (outRow mu N row).getD (1 + (9 * j + k)) 0 =
      (if k < 3 then comp3 (tailsv row j) k
       else if k < 6 then comp3 (rotvals mu row j) (k - 3)
       else comp3 (scalevals row j) (k - 6)) := by
  unfold outRow
  rw [show 1 + (9 * j + k) = (9 * j + k) + 1 by omega, List.getD_cons_succ,
    getD_range_map _ _ _ (by omega), alltbl_at mu N row j k hj hk]

theorem colnamesOf_foldl (l : List String) (init : List String) :
    l.foldl (fun acc e => acc ++ entityCols e) init = init ++ (l.map entityCols).flatten := by
  induction l generalizing init with
  | nil => simp
  | cons e es ih => simp [ih, List.append_assoc]

theorem flatten_entityCols_length (l : List String) :
    ((l.map entityCols).flatten).length = 9 * l.length := by
  induction l with
  | nil => simp
  | cons e es ih => simp [ih, entityCols]; ring

/-! ### C4 — framerate derivation -/

/-- C4 counterexample: with times `[0,1,2]` (3 frames over 2 seconds) the
code derives `int(3/2) = 1` on both paths, while rounding `3/2` to the
nearest integer gives `2` — Python `int()` truncates, it does not round. -/
theorem C4_counterexample :
    motFps [0, 1, 2] = 1 ∧ csvFps [0, 1, 2] = 1 ∧
    round ((([0, 1, 2] : List ℚ).length : ℚ) /
      (([0, 1, 2] : List ℚ).getLast! - ([0, 1, 2] : List ℚ).head!)) = 2 ∧
    (1 : ℤ) ≠ 2 := by
  have hl : ([0, 1, 2] : List ℚ).getLast! = 2 := rfl
  have hh : ([0, 1, 2] : List ℚ).head! = 0 := rfl
  refine ⟨?_, ?_, ?_, by decide⟩
  · simp only [motFps, hl, hh, List.length_cons, List.length_nil]
    norm_num [pyInt]
  · simp only [csvFps, hl, hh, List.length_cons, List.length_nil]
    norm_num [pyInt]
  · rw [hl, hh]
    simp only [List.length_cons, List.length_nil]
    norm_num [round_eq]

/-- C4 (amended): the derived framerate is `count(frames) / (t_last − t_first)`
truncated toward zero — for ascending times this is the floor, not the
nearest integer — and the identical derivation is used on the .mot path and
on the pose-CSV path. -/
theorem C4_amended (times : List ℚ) (h2 : 2 ≤ times.length)
    (hlt : times.head! < times.getLast!) :
    motFps times = ⌊(times.length : ℚ) / (times.getLast! - times.head!)⌋ ∧
    csvFps times = motFps times := by
  have hpos : (0 : ℚ) < times.getLast! - times.head! := by linarith
  have hnum : (0 : ℚ) ≤ (times.length : ℚ) := by positivity
  have hq : (0 : ℚ) ≤ (times.length : ℚ) / (times.getLast! - times.head!) :=
    div_nonneg hnum (le_of_lt hpos)
  constructor
  · simp only [motFps, pyInt, if_pos hq]
  · rfl

/-- C4 witness: the spec's own example — 100 samples `0.00 … 0.99` — gives
`⌊100/0.99⌋ = 101` frames per second on both paths. -/
theorem C4_amended_witness :
    (2 ≤ exTimes.length ∧ exTimes.head! < exTimes.getLast!) ∧
    motFps exTimes = ⌊(exTimes.length : ℚ) / (exTimes.getLast! - exTimes.head!)⌋ ∧
    csvFps exTimes = motFps exTimes ∧ motFps exTimes = 101 := by
  have hh : exTimes.head! = ((0 : ℕ) : ℚ) / 100 := rfl
  have hl : exTimes.getLast! = ((99 : ℕ) : ℚ) / 100 := rfl
  have hlen : exTimes.length = 100 := by
    show ((List.range 100).map (fun (n : ℕ) => (n : ℚ) / 100)).length = 100
    rw [List.length_map, List.length_range]
  have h2 : 2 ≤ exTimes.length := by rw [hlen]; norm_num
  have hlt : exTimes.head! < exTimes.getLast! := by rw [hh, hl]; norm_num
  have h := C4_amended exTimes h2 hlt
  refine ⟨⟨h2, hlt⟩, h.1, h.2, ?_⟩
  rw [h.1, hh, hl, hlen]
  norm_num

/-! ### C6 — reshaped record: shape, column names, header column -/

/-- C6: the reshaped record has as many rows as the input, `1 + 9*N`
columns named `Header` then, per entity, `{e}_x, {e}_y, {e}_z, {e}_rotx,
{e}_roty, {e}_rotz, {e}_scalex, {e}_scaley, {e}_scalez`, and column 0 of
every row is the input row's `Header` value unchanged. -/
theorem C6_shape (mu : MathUtils) (fpNames : List String) (rows : List (ℕ → ℝ)) :
    (fpdata2locrot mu fpNames rows).cols = "Header" :: (fpNames.map entityCols).flatten ∧
    (fpdata2locrot mu fpNames rows).cols.length = 1 + 9 * fpNames.length ∧
    (fpdata2locrot mu fpNames rows).rows.length = rows.length ∧
    ∀ i, i < rows.length →
      ((fpdata2locrot mu fpNames rows).rows.getD i []).length = 1 + 9 * fpNames.length ∧
      ((fpdata2locrot mu fpNames rows).rows.getD i []).getD 0 0 =
        rows.getD i (fun _ => 0) 0 := by
  have hcols : (fpdata2locrot mu fpNames rows).cols =
      "Header" :: (fpNames.map entityCols).flatten := by
    show colnamesOf fpNames = _
    rw [colnamesOf, colnamesOf_foldl]
    rfl
  refine ⟨hcols, ?_, ?_, ?_⟩
  · rw [hcols, List.length_cons, flatten_entityCols_length]
    omega
  · show (rows.map (outRow mu fpNames.length)).length = rows.length
    exact List.length_map rows _
  · intro i hi
    have hrow : (fpdata2locrot mu fpNames rows).rows.getD i [] =
        outRow mu fpNames.length (rows.getD i (fun _ => 0)) := by
      show (rows.map (outRow mu fpNames.length)).getD i [] = _
      rw [List.getD_eq_getElem _ _ (by simpa using hi), List.getElem_map,
        List.getD_eq_getElem _ _ hi]
    constructor
    · rw [hrow]
      show (_ :: (List.range (9 * fpNames.length)).map _).length = _
      rw [List.length_cons, List.length_map, List.length_range]
      omega
    · rw [hrow]
      rfl

/-- C6 witness at a one-entity, one-row input. -/
theorem C6_shape_witness :
    (fpdata2locrot muTriv ["FP1"] [rowZ]).cols =
      "Header" :: ((["FP1"] : List String).map entityCols).flatten ∧
    (fpdata2locrot muTriv ["FP1"] [rowZ]).cols.length = 1 + 9 * 1 ∧
    ((fpdata2locrot muTriv ["FP1"] [rowZ]).rows.getD 0 []).length = 1 + 9 * 1 := by
  have h := C6_shape muTriv ["FP1"] [rowZ]
  exact ⟨h.1, h.2.1, (h.2.2.2 0 (by norm_num)).1⟩

/-! ### C7 — scale values -/

/-- C7: in the reshaped output, each entity's `scalex` column is
`|arrow| / 700` unconditionally, and the `scaley`/`scalez` columns are `0`
when `|arrow| < 20` and `1` when `|arrow| ≥ 20`. -/
theorem C7_scale (mu : MathUtils) (row : ℕ → ℝ) (j N : ℕ) (hj : j < N) :
    (outRow mu N row).getD (1 + (9 * j + 6)) 0 = magnitude (thisarrow row j) / 700 ∧
    (magnitude (thisarrow row j) < 20 →
      (outRow mu N row).getD (1 + (9 * j + 7)) 0 = 0 ∧
      (outRow mu N row).getD (1 + (9 * j + 8)) 0 = 0) ∧
    (20 ≤ magnitude (thisarrow row j) →
      (outRow mu N row).getD (1 + (9 * j + 7)) 0 = 1 ∧
      (outRow mu N row).getD (1 + (9 * j + 8)) 0 = 1) := by
  rw [outRow_at mu N row j 6 hj (by norm_num), outRow_at mu N row j 7 hj (by norm_num),
    outRow_at mu N row j 8 hj (by norm_num)]
  norm_num
  refine ⟨rfl, fun hlt => ?_, fun hge => ?_⟩
  · show comp3 (scalevals row j) 1 = 0 ∧ comp3 (scalevals row j) 2 = 0
    show (if magnitude (thisarrow row j) < 20 then (0:ℝ) else 1) = 0 ∧
      (if magnitude (thisarrow row j) < 20 then (0:ℝ) else 1) = 0
    rw [if_pos hlt]
    exact ⟨rfl, rfl⟩
  · show comp3 (scalevals row j) 1 = 1 ∧ comp3 (scalevals row j) 2 = 1
    show (if magnitude (thisarrow row j) < 20 then (0:ℝ) else 1) = 1 ∧
      (if magnitude (thisarrow row j) < 20 then (0:ℝ) else 1) = 1
    rw [if_neg (not_lt.mpr hge)]
    exact ⟨rfl, rfl⟩

/-- C7 witness: an arrow `(700,0,0)` has magnitude `700 ≥ 20`, so
`scalex = 1` and `scaley = scalez = 1`. -/
theorem C7_scale_witness :
    magnitude (thisarrow rowC7 0) = 700 ∧
    (outRow muTriv 1 rowC7).getD 7 0 = magnitude (thisarrow rowC7 0) / 700 ∧
    (outRow muTriv 1 rowC7).getD 8 0 = 1 ∧
    (outRow muTriv 1 rowC7).getD 9 0 = 1 := by
  have hmag : magnitude (thisarrow rowC7 0) = 700 := by
    unfold magnitude thisarrow rowC7
    norm_num
    rw [show (490000 : ℝ) = 700 ^ 2 by norm_num, Real.sqrt_sq (by norm_num)]
  have h := C7_scale muTriv rowC7 0 1 (by norm_num)
  have h2 := h.2.2 (by rw [hmag]; norm_num)
  exact ⟨hmag, h.1, h2.1, h2.2⟩

/-! ### C10 — the location columns are the raw endpoint group, verbatim -/

/-- C10: the three location columns of entity `j` are the raw input fields
at flat offsets `9*j + {4,5,6}`, copied with no arithmetic. -/
theorem C10_loc_verbatim (mu : MathUtils) (row : ℕ → ℝ) (j k N : ℕ)
    (hj : j < N) (hk : k < 3) :
    (outRow mu N row).getD (1 + (9 * j + k)) 0 = row (9 * j + (4 + k)) := by
  have h := outRow_at mu N row j k hj (by omega)
  rw [if_pos hk] at h
  rw [h]
  interval_cases k
  · show comp3 (tailsv row j) 0 = _
    simp [comp3, tailsv]
  · show comp3 (tailsv row j) 1 = _
    simp [comp3, tailsv]
  · show comp3 (tailsv row j) 2 = _
    simp [comp3, tailsv]

/-- C10 witness: at the concrete row `rowC2`, output column 1 (entity 0's
`_x`) is the raw field at flat offset 4, namely `300`. -/
theorem C10_loc_witness :
    (outRow muTriv 1 rowC2).getD 1 0 = rowC2 4 ∧ rowC2 4 = 300 := by
  constructor
  · exact C10_loc_verbatim muTriv rowC2 0 0 1 (by norm_num) (by norm_num)
  · norm_num [rowC2]

/-! ### C2 — the direction vector is not `endpoint − base` -/

/-- C2 counterexample: with base group `(100,0,0)` (offsets 1–3) and
endpoint group `(300,0,0)` (offsets 4–6), the source uses `(100,0,0)` as
the arrow — its `scalex` output is `100/700 = 1/7` — while
`endpoint − base = (200,0,0)` would give `2/7`.  No subtraction occurs in
the code. -/
theorem C2_counterexample :
    thisarrow rowC2 0 = (100, 0, 0) ∧
    arrowSpecEndpointMinusBase rowC2 0 = (200, 0, 0) ∧
    (outRow muTriv 1 rowC2).getD 7 0 = 1 / 7 ∧
    magnitude (arrowSpecEndpointMinusBase rowC2 0) / 700 = 2 / 7 ∧
    ((1 : ℝ) / 7) ≠ 2 / 7 := by
  have ha : thisarrow rowC2 0 = (100, 0, 0) := by
    unfold thisarrow rowC2
    norm_num
  have hs : arrowSpecEndpointMinusBase rowC2 0 = (200, 0, 0) := by
    unfold arrowSpecEndpointMinusBase rowC2
    norm_num
  have hm : magnitude ((100 : ℝ), (0 : ℝ), (0 : ℝ)) = 100 := by
    unfold magnitude
    norm_num
    rw [show (10000 : ℝ) = 100 ^ 2 by norm_num, Real.sqrt_sq (by norm_num)]
  have hm2 : magnitude ((200 : ℝ), (0 : ℝ), (0 : ℝ)) = 200 := by
    unfold magnitude
    norm_num
    rw [show (40000 : ℝ) = 200 ^ 2 by norm_num, Real.sqrt_sq (by norm_num)]
  refine ⟨ha, hs, ?_, ?_, by norm_num⟩
  · show (outRow muTriv 1 rowC2).getD (1 + (9 * 0 + 6)) 0 = 1 / 7
    rw [outRow_at muTriv 1 rowC2 0 6 (by norm_num) (by norm_num)]
    norm_num
    show magnitude (thisarrow rowC2 0) / 700 = 1 / 7
    rw [ha, hm]
    norm_num
  · rw [hs, hm2]
    norm_num

/-- C2 (amended): the direction vector is the raw field triple at flat
offsets `9*i + {1,2,3}` used directly — no subtraction is applied; it feeds
both the rotation columns (through `rotation_difference` with `(1,0,0)`)
and the `scalex` column. -/
theorem C2_amended (mu : MathUtils) (row : ℕ → ℝ) (j N : ℕ) (hj : j < N) :
    thisarrow row j = (row (9 * j + 1), row (9 * j + 2), row (9 * j + 3)) ∧
    (outRow mu N row).getD (1 + (9 * j + 3)) 0 =
      (mu.rotDiffEulerXYZ (normalized (thisarrow row j))).1 * 180 / Real.pi ∧
    (outRow mu N row).getD (1 + (9 * j + 6)) 0 = magnitude (thisarrow row j) / 700 := by
  refine ⟨rfl, ?_, ?_⟩
  · rw [outRow_at mu N row j 3 hj (by norm_num)]
    norm_num
    rfl
  · rw [outRow_at mu N row j 6 hj (by norm_num)]
    norm_num
    rfl

/-- C2 witness at the concrete one-entity row. -/
theorem C2_amended_witness :
    thisarrow rowC2 0 = (rowC2 1, rowC2 2, rowC2 3) ∧
    (outRow muTriv 1 rowC2).getD 4 0 =
      (muTriv.rotDiffEulerXYZ (normalized (thisarrow rowC2 0))).1 * 180 / Real.pi ∧
    (outRow muTriv 1 rowC2).getD 7 0 = magnitude (thisarrow rowC2 0) / 700 :=
  C2_amended muTriv rowC2 0 1 (by norm_num)

/-! ### C3 — zero arrow: no exception is raised -/

/-- C3 counterexample: on the all-zero row the converter returns a complete
record — `DegenerateVectorError` does not exist anywhere in the source, and
`normalized()` maps the zero vector to the zero vector without raising —
with rotation columns produced from the collaborator's value at `(0,0,0)`
(here the trivial collaborator, giving rotation `(0,0,0)`) and scale
`(0,0,0)`. -/
theorem C3_counterexample :
    thisarrow rowZ 0 = (0, 0, 0) ∧
    outRow muTriv 1 rowZ = [0, 0, 0, 0, 0, 0, 0, 0, 0, 0] := by
  have hmag : magnitude (thisarrow rowZ 0) = 0 := by
    unfold magnitude thisarrow rowZ
    norm_num
  refine ⟨rfl, ?_⟩
  show rowZ 0 :: (List.range 9).map (alltbl muTriv 1 rowZ) = _
  rw [show List.range 9 = [0, 1, 2, 3, 4, 5, 6, 7, 8] by decide]
  simp only [List.map_cons, List.map_nil]
  have h3 : alltbl muTriv 1 rowZ 3 = 0 := by
    show (0 : ℝ) * 180 / Real.pi = 0
    norm_num
  have h4 : alltbl muTriv 1 rowZ 4 = 0 := by
    show (0 : ℝ) * 180 / Real.pi = 0
    norm_num
  have h5 : alltbl muTriv 1 rowZ 5 = 0 := by
    show (0 : ℝ) * 180 / Real.pi = 0
    norm_num
  have h6 : alltbl muTriv 1 rowZ 6 = 0 := by
    show magnitude (thisarrow rowZ 0) / 700 = 0
    rw [hmag]
    norm_num
  have h7 : alltbl muTriv 1 rowZ 7 = 0 := by
    show (if magnitude (thisarrow rowZ 0) < 20 then (0 : ℝ) else 1) = 0
    rw [hmag]
    norm_num
  have h8 : alltbl muTriv 1 rowZ 8 = 0 := by
    show (if magnitude (thisarrow rowZ 0) < 20 then (0 : ℝ) else 1) = 0
    rw [hmag]
    norm_num
  rw [h3, h4, h5, h6, h7, h8]
  rfl

/-- C3 (amended): on a zero arrow the converter does not fail: the zero
vector is passed (unchanged by `normalized()`) to the external
`rotation_difference`, whose Euler angles become the rotation columns, and
the scale columns are `(0,0,0)` (`0/700` and the below-threshold gate), so
the marker is silently hidden rather than an error being raised. -/
theorem C3_amended (mu : MathUtils) (row : ℕ → ℝ) (j N : ℕ) (hj : j < N)
    (hz : thisarrow row j = (0, 0, 0)) :
    normalized (thisarrow row j) = (0, 0, 0) ∧
    (outRow mu N row).getD (1 + (9 * j + 3)) 0 =
      (mu.rotDiffEulerXYZ (0, 0, 0)).1 * 180 / Real.pi ∧
    (outRow mu N row).getD (1 + (9 * j + 4)) 0 =
      (mu.rotDiffEulerXYZ (0, 0, 0)).2.1 * 180 / Real.pi ∧
    (outRow mu N row).getD (1 + (9 * j + 5)) 0 =
      (mu.rotDiffEulerXYZ (0, 0, 0)).2.2 * 180 / Real.pi ∧
    (outRow mu N row).getD (1 + (9 * j + 6)) 0 = 0 ∧
    (outRow mu N row).getD (1 + (9 * j + 7)) 0 = 0 ∧
    (outRow mu N row).getD (1 + (9 * j + 8)) 0 = 0 := by
  have hmag : magnitude (thisarrow row j) = 0 := by
    rw [hz]
    unfold magnitude
    norm_num
  have hnorm : normalized (thisarrow row j) = (0, 0, 0) := by
    unfold normalized
    rw [if_pos hmag]
    exact hz
  refine ⟨hnorm, ?_, ?_, ?_, ?_, ?_, ?_⟩
  · rw [outRow_at mu N row j 3 hj (by norm_num)]
    norm_num
    show (mu.rotDiffEulerXYZ (normalized (thisarrow row j))).1 * 180 / Real.pi = _
    rw [hnorm]
    rfl
  · rw [outRow_at mu N row j 4 hj (by norm_num)]
    norm_num
    show (mu.rotDiffEulerXYZ (normalized (thisarrow row j))).2.1 * 180 / Real.pi = _
    rw [hnorm]
    rfl
  · rw [outRow_at mu N row j 5 hj (by norm_num)]
    norm_num
    show (mu.rotDiffEulerXYZ (normalized (thisarrow row j))).2.2 * 180 / Real.pi = _
    rw [hnorm]
    rfl
  · rw [outRow_at mu N row j 6 hj (by norm_num)]
    norm_num
    show magnitude (thisarrow row j) / 700 = 0
    rw [hmag]
    norm_num
  · rw [outRow_at mu N row j 7 hj (by norm_num)]
    norm_num
    show (if magnitude (thisarrow row j) < 20 then (0 : ℝ) else 1) = 0
    rw [hmag]
    norm_num
  · rw [outRow_at mu N row j 8 hj (by norm_num)]
    norm_num
    show (if magnitude (thisarrow row j) < 20 then (0 : ℝ) else 1) = 0
    rw [hmag]
    norm_num

/-- C3 witness at the all-zero row. -/
theorem C3_amended_witness :
    thisarrow rowZ 0 = (0, 0, 0) ∧
    (outRow muTriv 1 rowZ).getD 7 0 = 0 ∧
    (outRow muTriv 1 rowZ).getD 4 0 =
      (muTriv.rotDiffEulerXYZ (0, 0, 0)).1 * 180 / Real.pi := by
  have hz : thisarrow rowZ 0 = (0, 0, 0) := rfl
  have h := C3_amended muTriv rowZ 0 1 (by norm_num) hz
  exact ⟨hz, h.2.2.2.2.1, h.2.1⟩

/-! ### C1 — the singular branch of the decomposition -/

theorem Hex_entries : Hex 1 0 = 0 ∧ Hex 0 0 = 0 ∧ Hex 2 0 = 1 ∧ Rex 2 0 = 0 := by
  have hz : Hex = mul4 H_zup (blockH Rex (fun _ => 0)) := by
    show (if Direction.zup = Direction.zup then mul4 H_zup (blockH Rex (fun _ => 0))
      else blockH Rex (fun _ => 0)) = mul4 H_zup (blockH Rex (fun _ => 0))
    rw [if_pos rfl]
  refine ⟨?_, ?_, ?_, rfl⟩ <;>
    · rw [hz]
      show (∑ k : Fin 4, H_zup _ k * blockH Rex (fun _ => 0) k 0) = _
      rw [Fin.sum_univ_four]
      norm_num [show blockH Rex (fun _ => 0) 0 0 = 0 from rfl,
        show blockH Rex (fun _ => 0) 1 0 = 1 from rfl,
        show blockH Rex (fun _ => 0) 2 0 = 0 from rfl,
        show blockH Rex (fun _ => 0) 3 0 = 0 from rfl,
        show H_zup 0 0 = 1 from rfl, show H_zup 0 1 = 0 from rfl,
        show H_zup 0 2 = 0 from rfl, show H_zup 0 3 = 0 from rfl,
        show H_zup 1 0 = 0 from rfl, show H_zup 1 1 = 0 from rfl,
        show H_zup 1 2 = -1 from rfl, show H_zup 1 3 = 0 from rfl,
        show H_zup 2 0 = 0 from rfl, show H_zup 2 1 = 1 from rfl,
        show H_zup 2 2 = 0 from rfl, show H_zup 2 3 = 0 from rfl]

/-- C1: the code is wrong on the converted matrix `Hex` (an orthonormal
rotation hitting the singular branch, `sy = 0`): the source computes
`rot_y = atan2(-R[2,0], sy)` from the *pre-conversion* rotation `R = Rex`
(giving `atan2(0,0) = 0`), while the claimed formula
`atan2(-R_mat[2,0], sy)` over the rotation block of the converted matrix
gives `atan2(-1, 0) = -π/2`.  Every neighbouring line of the branch uses
`R_mat`; line 142 is flagged `# to be verified` in the source. -/
theorem C1_code_bug_eval :
    Real.sqrt ((Hex 1 0) ^ 2 + (Hex 0 0) ^ 2) = 0 ∧
    (processBody Direction.zup Rex (fun _ => 0)).rot_y = 0 ∧
    atan2 (-(Hex 2 0)) (Real.sqrt ((Hex 1 0) ^ 2 + (Hex 0 0) ^ 2)) = -(Real.pi / 2) ∧
    (0 : ℝ) ≠ -(Real.pi / 2) := by
  obtain ⟨h10, h00, h20, hr20⟩ := Hex_entries
  have hsy : Real.sqrt ((Hex 1 0) ^ 2 + (Hex 0 0) ^ 2) = 0 := by
    rw [h10, h00]
    norm_num
  refine ⟨hsy, ?_, ?_, ?_⟩
  · show (decompose Hex Rex).rot_y = 0
    simp only [decompose]
    rw [hsy, if_neg (by norm_num), hr20]
    show atan2 (-0) 0 = 0
    norm_num [atan2]
  · rw [h20, hsy]
    norm_num [atan2]
  · have := Real.pi_pos
    intro h
    linarith

/-! ### C8 — up-axis conversion before decomposition -/

/-- C8: on the .mot path, a `zup` direction pre-multiplies every pose
matrix by `H_zup` and `yup` passes it through unchanged, in both cases
*before* the decomposition; the final conjuncts verify that the literal
`H_zup = [[1,0,0,0],[0,0,-1,0],[0,1,0,0],[0,0,0,1]]` acts as expected on
rows (row 1 of the product is the negated row 2 of `H`, row 2 is row 1). -/
theorem C8_upaxis (dir : Direction) (R : Fin 3 → Fin 3 → ℝ) (T : Fin 3 → ℝ)
    (H : Fin 4 → Fin 4 → ℝ) (j : Fin 4) :
    upAxis Direction.zup H = mul4 H_zup H ∧
    upAxis Direction.yup H = H ∧
    processBody dir R T = decompose (upAxis dir (blockH R T)) R ∧
    mul4 H_zup H 0 j = H 0 j ∧
    mul4 H_zup H 1 j = -(H 2 j) ∧
    mul4 H_zup H 2 j = H 1 j ∧
    mul4 H_zup H 3 j = H 3 j := by
  have hy : upAxis Direction.yup H = H := by
    show (if Direction.yup = Direction.zup then mul4 H_zup H else H) = H
    rw [if_neg (by decide)]
  have hzup : upAxis Direction.zup H = mul4 H_zup H := by
    show (if Direction.zup = Direction.zup then mul4 H_zup H else H) = mul4 H_zup H
    rw [if_pos rfl]
  refine ⟨hzup, hy, rfl, ?_, ?_, ?_, ?_⟩ <;>
    · show (∑ k : Fin 4, H_zup _ k * H k j) = _
      rw [Fin.sum_univ_four]
      simp only [show H_zup 0 0 = 1 from rfl, show H_zup 0 1 = 0 from rfl,
        show H_zup 0 2 = 0 from rfl, show H_zup 0 3 = 0 from rfl,
        show H_zup 1 0 = 0 from rfl, show H_zup 1 1 = 0 from rfl,
        show H_zup 1 2 = -1 from rfl, show H_zup 1 3 = 0 from rfl,
        show H_zup 2 0 = 0 from rfl, show H_zup 2 1 = 1 from rfl,
        show H_zup 2 2 = 0 from rfl, show H_zup 2 3 = 0 from rfl,
        show H_zup 3 0 = 0 from rfl, show H_zup 3 1 = 0 from rfl,
        show H_zup 3 2 = 0 from rfl, show H_zup 3 3 = 1 from rfl]
      ring

/-! ### String lemmas for the CSV header round trip -/

theorem splitComma_no_comma (xs : List Char) (h : ',' ∉ xs) : splitComma xs = [xs] := by
  induction xs with
  | nil => rfl
  | cons c rest ih =>
    have hc : c ≠ ',' := fun hh => h (by simp [hh])
    have hr : ',' ∉ rest := fun hh => h (by simp [hh])
    simp only [splitComma, if_neg hc, ih hr]

theorem splitComma_append (xs ys : List Char) (h : ',' ∉ xs) :
    splitComma (xs ++ ',' :: ys) = xs :: splitComma ys := by
  induction xs with
  | nil => simp [splitComma]
  | cons c rest ih =>
    have hc : c ≠ ',' := fun hh => h (by simp [hh])
    have hr : ',' ∉ rest := fun hh => h (by simp [hh])
    simp only [List.cons_append, splitComma, if_neg hc]
    rw [show rest.append (',' :: ys) = rest ++ ',' :: ys from rfl, ih hr]

theorem dropLastTwo_append_two (A : List Char) (x y : Char) :
    dropLastTwo (A ++ [x, y]) = A := by
  unfold dropLastTwo
  rw [List.length_append]
  simp [List.take_left']

theorem dropLastTwo_append (X Y : List Char) (h : 2 ≤ Y.length) :
    dropLastTwo (X ++ Y) = X ++ dropLastTwo Y := by
  unfold dropLastTwo
  rw [List.length_append, show X.length + Y.length - 2 = X.length + (Y.length - 2) by omega,
    List.take_append]

/-- The comma-free columns of a nonempty header, intercalated with `", "`. -/
def icomma : List (List Char) → List Char
  | [] => []
  | [c] => c
  | c :: cs => c ++ ',' :: ' ' :: icomma cs

theorem seg_flatten_len (cs : List (List Char)) (hne : cs ≠ []) :
    2 ≤ ((cs.map (fun c => c ++ (", ").toList)).flatten).length := by
  cases cs with
  | nil => cases hne rfl
  | cons c cs =>
    simp only [List.map_cons, List.flatten_cons, List.length_append, List.length_cons]
    have : ((", ").toList).length = 2 := rfl
    omega

theorem dropLastTwo_flatten (cs : List (List Char)) (hne : cs ≠ []) :
    dropLastTwo ((cs.map (fun c => c ++ (", ").toList)).flatten) = icomma cs := by
  induction cs with
  | nil => cases hne rfl
  | cons c cs ih =>
    cases cs with
    | nil =>
      show dropLastTwo ((c ++ [',', ' ']) ++ []) = c
      rw [List.append_nil, dropLastTwo_append_two]
    | cons c2 cs2 =>
      rw [List.map_cons, List.flatten_cons,
        dropLastTwo_append _ _ (seg_flatten_len (c2 :: cs2) (by simp)),
        ih (by simp)]
      show c ++ [',', ' '] ++ icomma (c2 :: cs2) = icomma (c :: c2 :: cs2)
      simp [icomma, List.append_assoc]

theorem icomma_toks (cs : List (List Char)) (hne : cs ≠ []) :
    ',' :: ' ' :: icomma cs = (cs.map (fun c => ',' :: ' ' :: c)).flatten := by
  induction cs with
  | nil => cases hne rfl
  | cons c cs ih =>
    cases cs with
    | nil => simp [icomma]
    | cons c2 cs2 =>
      show ',' :: ' ' :: (c ++ ',' :: ' ' :: icomma (c2 :: cs2)) = _
      rw [List.map_cons, List.flatten_cons, ← ih (by simp)]
      simp [List.cons_append]

theorem flatten_segments (names : List (List Char)) :
    (names.map segmentOf).flatten =
      (((names.map entityCols6).flatten).map (fun c => c ++ (", ").toList)).flatten := by
  induction names with
  | nil => rfl
  | cons b bs ih =>
    simp only [List.map_cons, List.flatten_cons, List.map_append, List.flatten_append, ih]
    rfl

theorem flatten_cols_ne (names : List (List Char)) (hne : names ≠ []) :
    (names.map entityCols6).flatten ≠ [] := by
  cases names with
  | nil => cases hne rfl
  | cons b bs => simp [entityCols6]

theorem headerLine_shape (names : List (List Char)) (hne : names ≠ []) :
    csvHeaderLine names = ("# times").toList ++
      (((names.map entityCols6).flatten).map (fun c => ',' :: ' ' :: c)).flatten ++ ['\n'] := by
  unfold csvHeaderLine bodyHeader
  rw [flatten_segments, dropLastTwo_flatten _ (flatten_cols_ne names hne),
    ← icomma_toks _ (flatten_cols_ne names hne)]
  rfl

/-- The token list produced by splitting the canonical header line at
commas: the running prefix `P`, then one token per remaining column, the
final token carrying the newline. -/
def tokenList (P : List Char) : List (List Char) → List (List Char)
  | [] => [P ++ ['\n']]
  | c :: cs => P :: tokenList (' ' :: c) cs

theorem splitComma_tokens (cols : List (List Char)) (P : List Char)
    (hP : ',' ∉ P) (hcols : ∀ c ∈ cols, ',' ∉ c) :
    splitComma (P ++ (cols.map (fun c => ',' :: ' ' :: c)).flatten ++ ['\n']) =
      tokenList P cols := by
  induction cols generalizing P with
  | nil =>
    have hfree : ',' ∉ P ++ ['\n'] := by
      intro h
      rcases List.mem_append.mp h with h | h
      · exact hP h
      · revert h
        decide
    simp only [List.map_nil, List.flatten_nil, List.append_nil]
    rw [splitComma_no_comma _ hfree]
    rfl
  | cons c cs ih =>
    have hc : ',' ∉ c := hcols c (by simp)
    have hsc : ',' ∉ (' ' :: c) := by
      intro h
      rcases List.mem_cons.mp h with h | h
      · exact absurd h (by decide)
      · exact hc h
    have hrest : ∀ x ∈ cs, ',' ∉ x := fun x hx => hcols x (by simp [hx])
    have hshape : P ++ ((c :: cs).map (fun c => ',' :: ' ' :: c)).flatten ++ ['\n'] =
        P ++ ',' :: ((' ' :: c) ++ (cs.map (fun c => ',' :: ' ' :: c)).flatten ++ ['\n']) := by
      simp [List.append_assoc]
    rw [hshape, splitComma_append P _ hP, ih (' ' :: c) hsc hrest]
    rfl

theorem everySixth_six (a b c d e f : List Char) (rest : List (List Char)) :
    everySixth (a :: b :: c :: d :: e :: f :: rest) = a :: everySixth rest := by
  cases rest <;> rfl

theorem readNames_tokenList (names : List (List Char)) :
    ∀ P, (everySixth ((tokenList P ((names.map entityCols6).flatten)).drop 1)).map
      (fun b => dropLastTwo (b.drop 1)) = names := by
  induction names with
  | nil => intro P; rfl
  | cons b bs ih =>
    intro P
    cases bs with
    | nil =>
      show [dropLastTwo (b ++ ("_x").toList)] = [b]
      rw [show ("_x").toList = ['_', 'x'] from rfl, dropLastTwo_append_two]
    | cons b2 bs2 =>
      show (everySixth ((' ' :: (b ++ ("_x").toList)) :: (' ' :: (b ++ ("_y").toList)) ::
          (' ' :: (b ++ ("_z").toList)) :: (' ' :: (b ++ ("_rotx").toList)) ::
          (' ' :: (b ++ ("_roty").toList)) :: (' ' :: (b ++ ("_rotz").toList)) ::
          tokenList (' ' :: (b2 ++ ("_x").toList))
            ((b2 ++ ("_y").toList) :: (b2 ++ ("_z").toList) :: (b2 ++ ("_rotx").toList) ::
             (b2 ++ ("_roty").toList) :: (b2 ++ ("_rotz").toList) ::
             (bs2.map entityCols6).flatten))).map
        (fun t => dropLastTwo (t.drop 1)) = b :: b2 :: bs2
      rw [everySixth_six]
      simp only [List.map_cons]
      rw [show dropLastTwo ((' ' :: (b ++ ("_x").toList)).drop 1) = b from by
        rw [show (' ' :: (b ++ ("_x").toList)).drop 1 = b ++ ['_', 'x'] from rfl,
          dropLastTwo_append_two]]
      exact congrArg (b :: ·) (ih [])

theorem cols_comma_free (names : List (List Char)) (hcf : ∀ b ∈ names, ',' ∉ b) :
    ∀ c ∈ (names.map entityCols6).flatten, ',' ∉ c := by
  intro c hc
  rw [List.mem_flatten] at hc
  obtain ⟨l, hl, hcl⟩ := hc
  rw [List.mem_map] at hl
  obtain ⟨b, hb, rfl⟩ := hl
  have hbf := hcf b hb
  simp only [entityCols6, List.mem_cons, List.not_mem_nil, or_false] at hcl
  rcases hcl with rfl | rfl | rfl | rfl | rfl | rfl <;>
    · intro hmem
      rcases List.mem_append.mp hmem with h | h
      · exact hbf h
      · revert h
        decide

theorem getD_skip7 (t x1 x2 x3 x4 x5 x6 : ℝ) (rest : List ℝ) (m : ℕ) :
    (t :: x1 :: x2 :: x3 :: x4 :: x5 :: x6 :: rest).getD (7 + m) 0 = rest.getD m 0 := by
  rw [show 7 + m = (6 + m) + 1 by ring, List.getD_cons_succ,
    show 6 + m = (5 + m) + 1 by ring, List.getD_cons_succ,
    show 5 + m = (4 + m) + 1 by ring, List.getD_cons_succ,
    show 4 + m = (3 + m) + 1 by ring, List.getD_cons_succ,
    show 3 + m = (2 + m) + 1 by ring, List.getD_cons_succ,
    show 2 + m = (1 + m) + 1 by ring, List.getD_cons_succ,
    show 1 + m = m + 1 by ring, List.getD_cons_succ]

theorem readPose_writeRow (t : ℝ) (poses : List Pose6) :
    ∀ i, i < poses.length → readPose (writeRow t poses) i = poses.getD i ⟨0, 0, 0, 0, 0, 0⟩ := by
  induction poses with
  | nil =>
    intro i hi
    exact absurd hi (by simp)
  | cons p ps ih =>
    intro i hi
    cases i with
    | zero => rfl
    | succ n =>
      have hn : n < ps.length := by simpa using hi
      have hstep : readPose (writeRow t (p :: ps)) (n + 1) = readPose (writeRow t ps) n := by
        show readPose (t :: p.x :: p.y :: p.z :: p.rx :: p.ry :: p.rz ::
          (ps.map pose6List).flatten) (n + 1) = readPose (t :: (ps.map pose6List).flatten) n
        unfold readPose
        simp only [Pose6.mk.injEq]
        refine ⟨?_, ?_, ?_, ?_, ?_, ?_⟩
        · rw [show 6 * (n + 1) + 1 = 7 + 6 * n by ring, getD_skip7, List.getD_cons_succ]
        · rw [show 6 * (n + 1) + 2 = 7 + (6 * n + 1) by ring, getD_skip7,
            show 6 * n + 2 = (6 * n + 1) + 1 by ring, List.getD_cons_succ]
        · rw [show 6 * (n + 1) + 3 = 7 + (6 * n + 2) by ring, getD_skip7,
            show 6 * n + 3 = (6 * n + 2) + 1 by ring, List.getD_cons_succ]
        · rw [show 6 * (n + 1) + 4 = 7 + (6 * n + 3) by ring, getD_skip7,
            show 6 * n + 4 = (6 * n + 3) + 1 by ring, List.getD_cons_succ]
        · rw [show 6 * (n + 1) + 5 = 7 + (6 * n + 4) by ring, getD_skip7,
            show 6 * n + 5 = (6 * n + 4) + 1 by ring, List.getD_cons_succ]
        · rw [show 6 * (n + 1) + 6 = 7 + (6 * n + 5) by ring, getD_skip7,
            show 6 * n + 6 = (6 * n + 5) + 1 by ring, List.getD_cons_succ]
      rw [hstep, ih n hn]
      exact (List.getD_cons_succ).symm

/-! ### C5 — CSV write-then-read round trip -/

/-- C5: writing the pose CSV and reading it back reproduces each body's
name exactly, in the model's body order, and reproduces every loc/rot
value exactly (serialization is modelled as exact: `np.savetxt`'s default
`%.18e` format round-trips doubles, well within the claimed 6+ significant
digits).  Hypotheses: at least one body, and body names contain no comma
(the CSV delimiter). -/
theorem C5_roundtrip (bodyNames : List (List Char)) (hne : bodyNames ≠ [])
    (hcf : ∀ b ∈ bodyNames, ',' ∉ b) (t : ℝ) (poses : List Pose6) :
    readBodyNames (csvHeaderLine bodyNames) = bodyNames ∧
    ∀ i, i < poses.length →
      readPose (writeRow t poses) i = poses.getD i ⟨0, 0, 0, 0, 0, 0⟩ := by
  constructor
  · unfold readBodyNames
    rw [headerLine_shape bodyNames hne,
      splitComma_tokens _ (("# times").toList) (by decide) (cols_comma_free bodyNames hcf)]
    exact readNames_tokenList bodyNames (("# times").toList)
  · exact readPose_writeRow t poses

/-- C5 witness: two bodies, two frames of concrete values. -/
theorem C5_roundtrip_witness :
    readBodyNames (csvHeaderLine exNames) = exNames ∧
    readPose (writeRow 0 exPoses) 1 = exPoses.getD 1 ⟨0, 0, 0, 0, 0, 0⟩ := by
  have h := C5_roundtrip exNames (by decide) (by decide) 0 exPoses
  exact ⟨h.1, h.2 1 (by decide)⟩

/-! ### C9 — no header validation on the csv path -/

/-- A malformed pose-CSV header line: 8 comma-separated columns, while the
two derived body names would require `1 + 6*2 = 13`. -/
def hdr8 : List Char := ("# times, a_x, a_y, a_z, a_rotx, a_roty, a_rotz, b_x").toList ++ ['\n']

theorem flatten_const_length (L : List (List Keyframe)) (K : ℕ)
    (h : ∀ l ∈ L, l.length = K) : L.flatten.length = L.length * K := by
  induction L with
  | nil => simp
  | cons a L ih =>
    simp only [List.flatten_cons, List.length_append, List.length_cons]
    rw [h a (by simp), ih (fun l hl => h l (by simp [hl]))]
    ring

/-- C9 (amended): the csv path performs no validation at all and defines no
`InputFormatError`: body names are whatever the header slice `[1::6]`
yields, and exactly one keyframe is emitted per (row, derived body) pair,
unconditionally, for every header whatsoever. -/
theorem C9_amended (headerLine : List Char) (rows : List (ℕ → ℝ)) :
    (csvAnimate headerLine rows).length =
      rows.length * (readBodyNames headerLine).length := by
  simp only [csvAnimate]
  rw [flatten_const_length _ (readBodyNames headerLine).length ?_]
  · rw [List.length_map, List.length_range]
  · intro l hl
    rw [List.mem_map] at hl
    obtain ⟨n, hn, rfl⟩ := hl
    rw [List.length_map, List.length_range]

/-- C9 counterexample: on the malformed header `hdr8` (8 columns instead of
the 13 its two derived bodies would require) the csv path emits two
keyframes for the data row — it does not fail, and no `InputFormatError`
exists in the source. -/
theorem C9_counterexample :
    (splitComma hdr8).length = 8 ∧
    readBodyNames hdr8 = [['a'], ['b', '_']] ∧
    ¬((splitComma hdr8).length = 1 + 6 * (readBodyNames hdr8).length) ∧
    (csvAnimate hdr8 [rowZ]).length = 2 := by
  refine ⟨by decide, by decide, by decide, by decide⟩
